import Mathlib

/-!
Verification of the geometry / curve-interpolation core of the plotting
repository.  The TypeScript source is shallowly embedded over `ℚ`
(JavaScript `number` arithmetic is modelled as exact rational arithmetic;
every claim under scrutiny is about exact values, and the source contains
no operation on the relevant paths that leaves `ℚ` except `Math.sqrt`,
which is handled by an explicit function parameter where it occurs).

Embedded files:
* `src/Vec2.ts`            → `Vec2Q` and its operations
* `src/Rect.ts`            → `RectQ`
* `src/Matrix.ts`          → `Matrix3` (the 3×3 instance actually used by
                              `viewportTransformation` / `mulVec2`)
* `Interpolator.ts`        → `remapParameterToSubRange`,
                              `LineSegmentsInterpolator`,
                              `QuadraticInterpolator`, `HermiteInterpolator`
* arc-length scratch file  → `evaluateBezier`, `buildArcLengthTable`,
                              `findTForArcLength`
-/

/-- `Vec2` from `src/Vec2.ts`: immutable 2-D vector. -/
@[ext]
structure Vec2Q where
  x : ℚ
  y : ℚ
deriving DecidableEq

namespace Vec2Q

/-- `Vec2.zero`. -/
def zero : Vec2Q := ⟨0, 0⟩

/-- `Vec2.one`. -/
def one : Vec2Q := ⟨1, 1⟩

/-- `Vec2.add`. -/
def add (a b : Vec2Q) : Vec2Q := ⟨a.x + b.x, a.y + b.y⟩

/-- `Vec2.sub`. -/
def sub (a b : Vec2Q) : Vec2Q := ⟨a.x - b.x, a.y - b.y⟩

/-- `Vec2.componentMul`. -/
def componentMul (a b : Vec2Q) : Vec2Q := ⟨a.x * b.x, a.y * b.y⟩

/-- `Vec2.componentDiv`: the source guards each axis, returning `0` for a
component whose divisor is `0` (`other.x === 0 ? 0 : this.x / other.x`). -/
def componentDiv (a b : Vec2Q) : Vec2Q :=
  ⟨if b.x = 0 then 0 else a.x / b.x, if b.y = 0 then 0 else a.y / b.y⟩

/-- `Vec2.scale`. -/
def scale (a : Vec2Q) (s : ℚ) : Vec2Q := ⟨a.x * s, a.y * s⟩

/-- `Vec2.lerp`: `this.add(to.sub(this).scale(amount))`, unclamped. -/
def lerp (a b : Vec2Q) (amount : ℚ) : Vec2Q := a.add ((b.sub a).scale amount)

/-- `Vec2.linearCombination`: `terms.reduce((r,[c,v]) => r.add(v.scale(c)), zero)`. -/
def linearCombination (terms : List (ℚ × Vec2Q)) : Vec2Q :=
  terms.foldl (fun result cv => result.add (cv.2.scale cv.1)) zero

end Vec2Q

/-- `LineSegmentInterpolator` from `Interpolator.ts`: `([a,b]) => t => a.lerp(b,t)`. -/
def LineSegmentInterpolator (a b : Vec2Q) (t : ℚ) : Vec2Q := a.lerp b t

/-- `QuadraticInterpolator` from `Interpolator.ts`:
`f(t) = (2a - 4b + 2c)t^2 + (-3a + 4b - c)t + a`, evaluated with
`Vec2.linearCombination` exactly as in the source. -/
def QuadraticInterpolator (a b c : Vec2Q) (t : ℚ) : Vec2Q :=
  Vec2Q.linearCombination
    [(t * t, Vec2Q.linearCombination [(2, a), (-4, b), (2, c)]),
     (t, Vec2Q.linearCombination [(-3, a), (4, b), (-1, c)]),
     (1, a)]

/-- `HermiteInterpolator` from `Interpolator.ts`: the body is an
unimplemented TODO stub that ignores `t` and returns the first control
point `a` (the comment in the source documents the intended constraints
`f(0)=a, f'(0)=b-a, f'(1)=d-c, f(1)=d`, but the returned value is just `a`). -/
def HermiteInterpolator (a _b _c _d : Vec2Q) (_t : ℚ) : Vec2Q := a

/-- JavaScript truncation toward zero, as performed by the `%` operator:
`Math.trunc(q)` is `⌈q⌉` for negative `q` and `⌊q⌋` otherwise. -/
def jsTrunc (q : ℚ) : ℤ := if q < 0 then ⌈q⌉ else ⌊q⌋

/-- The JavaScript remainder `a % b` on numbers: `a - b * trunc(a / b)`
(for the positive operands it is used with here this is the ordinary
positive remainder; `b = 0`, which JS maps to `NaN`, never occurs in the
embedded call sites since `segmentWidth = 1 / count` with `count ≥ 1`). -/
def jsMod (a b : ℚ) : ℚ := a - b * (jsTrunc (a / b) : ℚ)

/-- The `{parameter, index}` record returned by `remapParameterToSubRange`
in `Interpolator.ts`. -/
structure SubRange where
  parameter : ℚ
  index : ℤ
deriving DecidableEq

/-- `remapParameterToSubRange(parameter, count)` from `Interpolator.ts`:
clamps `parameter ≤ 0` to `{0, 0}` and `parameter ≥ 1` to `{1, count-1}`;
otherwise `segmentWidth = 1/count`,
`subT = (parameter % segmentWidth)/segmentWidth` and
`segmentIndex = Math.floor(parameter/segmentWidth)`. -/
def remapParameterToSubRange (parameter : ℚ) (count : ℕ) : SubRange :=
  if parameter ≤ 0 then ⟨0, 0⟩
  else if 1 ≤ parameter then ⟨1, (count : ℤ) - 1⟩
  else
    let segmentWidth : ℚ := 1 / count
    ⟨jsMod parameter segmentWidth / segmentWidth,
     ⌊parameter / segmentWidth⌋⟩

/-- `LineSegmentsInterpolator` from `Interpolator.ts`.  `numSegments =
pts.length - 1`; when fewer than one segment exists the function returns
`pts[0] ?? Vec2.zero`; otherwise it remaps `t` and feeds
`pts[index], pts[index+1]` to `LineSegmentInterpolator`.  The JS array
reads are modelled with `List.getD _ Vec2Q.zero`; theorem
`remap_bounds_safe` shows both indices are in bounds for `count ≥ 1`, so
the default is never consulted. -/
def LineSegmentsInterpolator (pts : List Vec2Q) (t : ℚ) : Vec2Q :=
  let numSegments := pts.length - 1
  if numSegments < 1 then pts.getD 0 Vec2Q.zero
  else
    let r := remapParameterToSubRange t numSegments
    LineSegmentInterpolator (pts.getD r.index.toNat Vec2Q.zero)
      (pts.getD (r.index.toNat + 1) Vec2Q.zero) r.parameter

/-- `Rect` from `src/Rect.ts`: `{origin, size}`. -/
@[ext]
structure RectQ where
  origin : Vec2Q
  size : Vec2Q
deriving DecidableEq

namespace RectQ

/-- `Rect.convertNormalizedCoordinate`: `origin.add(size.componentMul(p))`. -/
def convertNormalizedCoordinate (r : RectQ) (p : Vec2Q) : Vec2Q :=
  r.origin.add (r.size.componentMul p)

/-- `Rect.farCorner`: `convertNormalizedCoordinate(Vec2.one)`. -/
def farCorner (r : RectQ) : Vec2Q := r.convertNormalizedCoordinate Vec2Q.one

/-- `Rect.create(x, y, width, height)`. -/
def create (x y width height : ℚ) : RectQ := ⟨⟨x, y⟩, ⟨width, height⟩⟩

end RectQ

/-- A column of the 3×3 matrix of `src/Matrix.ts` (the class stores
`data : NVec<C, VecN<R>>`, i.e. a sequence of columns). -/
@[ext]
structure Vec3Q where
  x : ℚ
  y : ℚ
  z : ℚ
deriving DecidableEq

/-- The `Matrix<3,3>` instance of the `Matrix` class from `src/Matrix.ts`,
as its column data. -/
@[ext]
structure Matrix3 where
  col0 : Vec3Q
  col1 : Vec3Q
  col2 : Vec3Q
deriving DecidableEq

namespace Matrix3

/-- `Matrix.mulVec2` for a 3×3 matrix: extends `v` to the homogeneous
components `[v.x, v.y, 1]`, takes `VecNDot` of each row with it (the
`reduce` starts from `0`), and keeps only the first two results. -/
def mulVec2 (m : Matrix3) (v : Vec2Q) : Vec2Q :=
  ⟨0 + m.col0.x * v.x + m.col1.x * v.y + m.col2.x * 1,
   0 + m.col0.y * v.x + m.col1.y * v.y + m.col2.y * 1⟩

/-- The `scale` local of `Matrix.viewportTransformation`:
`destUR.sub(destLL).componentDiv(sourceUR.sub(sourceLL))`. -/
def viewportScale (source dest : RectQ) : Vec2Q :=
  (dest.farCorner.sub dest.origin).componentDiv (source.farCorner.sub source.origin)

/-- The `translate` local of `Matrix.viewportTransformation`:
`destLL.sub(scale.componentMul(sourceLL))`. -/
def viewportTranslate (source dest : RectQ) : Vec2Q :=
  dest.origin.sub ((viewportScale source dest).componentMul source.origin)

/-- `Matrix.viewportTransformation(source, dest)`: returns the matrix with
column data `[[scale.x,0,0],[0,scale.y,0],[translate.x,translate.y,0]]`. -/
def viewportTransformation (source dest : RectQ) : Matrix3 :=
  ⟨⟨(viewportScale source dest).x, 0, 0⟩,
   ⟨0, (viewportScale source dest).y, 0⟩,
   ⟨(viewportTranslate source dest).x, (viewportTranslate source dest).y, 0⟩⟩

/-- The third row of the stored column data: `(col0.z, col1.z, col2.z)`. -/
def thirdRow (m : Matrix3) : ℚ × ℚ × ℚ := (m.col0.z, m.col1.z, m.col2.z)

/-- `m` with its bottom-right homogeneous entry (row 2 of column 2)
replaced by `1`, as a proper affine matrix would have it. -/
def withAffineBottomRight (m : Matrix3) : Matrix3 :=
  ⟨m.col0, m.col1, ⟨m.col2.x, m.col2.y, 1⟩⟩

end Matrix3

/-- `Point3D` from the arc-length scratch file. -/
structure Point3 where
  x : ℚ
  y : ℚ
  z : ℚ
deriving DecidableEq

/-- `factorial(n)` from the scratch file: `n <= 1 ? 1 : n * factorial(n-1)`. -/
def factorial (n : ℕ) : ℕ :=
  if _h : n ≤ 1 then 1 else n * factorial (n - 1)

/-- `binomialCoefficient(n,k)`: `factorial(n) / (factorial(k) * factorial(n-k))`
(the division is exact at every call site, which has `k ≤ n`). -/
def binomialCoefficient (n k : ℕ) : ℚ :=
  (factorial n : ℚ) / ((factorial k : ℚ) * (factorial (n - k) : ℚ))

/-- `evaluateBezier(points, t)`: `n = points.length - 1`, then accumulate
`C(n,i)·(1-t)^(n-i)·t^i · points[i]` componentwise for `i = 0..n` starting
from `(0,0,0)`.  (For an empty `points`, JS has `n = -1` so the loop never
runs and `(0,0,0)` is returned; the model's single iteration over the
truncated `n = 0` contributes `coef · 0` to each component of the
`getD`-defaulted `(0,0,0)`, returning the same `(0,0,0)`.) -/
def evaluateBezier (points : List Point3) (t : ℚ) : Point3 :=
  let n := points.length - 1
  (List.range (n + 1)).foldl
    (fun acc i =>
      let p := points.getD i ⟨0, 0, 0⟩
      let coef := binomialCoefficient n i * (1 - t) ^ (n - i) * t ^ i
      ⟨acc.x + coef * p.x, acc.y + coef * p.y, acc.z + coef * p.z⟩)
    ⟨0, 0, 0⟩

/-- The inline length increment of `buildArcLengthTable`:
`Math.sqrt((cur.x-prev.x)^2 + (cur.y-prev.y)^2 + (cur.z-prev.z)^2)`.
`Math.sqrt` is irrational-valued in general, so it is passed in as an
explicit `sqrtFn`; the theorems below use only that it is nonnegative on
the nonnegative inputs it receives here (true of `Math.sqrt`, which
returns a nonnegative number on every nonnegative argument), and concrete
evaluations instantiate it on inputs where its value is the stated
rational. -/
def chordLength (sqrtFn : ℚ → ℚ) (p q : Point3) : ℚ :=
  sqrtFn ((q.x - p.x) ^ 2 + (q.y - p.y) ^ 2 + (q.z - p.z) ^ 2)

/-- The loop body of `buildArcLengthTable`, iterated over the index list
`[1, ..., steps]` while carrying the running `length` and `prevPoint`;
each iteration samples `t = i/steps` and appends the accumulated length. -/
def buildArcLengthEntries (sqrtFn : ℚ → ℚ) (points : List Point3) (steps : ℕ) :
    List ℕ → ℚ → Point3 → List ℚ
  | [], _, _ => []
  | i :: rest, length, prevPoint =>
    let t : ℚ := (i : ℚ) / (steps : ℚ)
    let currentPoint := evaluateBezier points t
    let length2 := length + chordLength sqrtFn prevPoint currentPoint
    length2 :: buildArcLengthEntries sqrtFn points steps rest length2 currentPoint

/-- `buildArcLengthTable(points, steps)`: `table[0] = 0`, then the loop
`for i = 1..steps` accumulates chord lengths between consecutive samples
(`(List.range steps).map (· + 1)` is exactly `[1, ..., steps]`). -/
def buildArcLengthTable (sqrtFn : ℚ → ℚ) (points : List Point3) (steps : ℕ) :
    List ℚ :=
  0 :: buildArcLengthEntries sqrtFn points steps ((List.range steps).map (· + 1))
    0 (evaluateBezier points 0)

/-- A JS array read `table[i]` with an arbitrary (possibly negative)
index: `none` models the `undefined` result of an out-of-range read. -/
def jsGetZ (table : List ℚ) (i : ℤ) : Option ℚ :=
  if h : 0 ≤ i ∧ i.toNat < table.length then some (table.get ⟨i.toNat, h.2⟩)
  else none

/-- JS `table[mid] < value`: comparing `undefined` with a number is
`false`. -/
def jsLtOpt : Option ℚ → ℚ → Bool
  | none, _ => false
  | some v, s => decide (v < s)

/-- JS `value >= table[lastIndex]`, i.e. `table[lastIndex] ≤ value`:
comparing `undefined` with a number is `false`. -/
def jsLeOpt : Option ℚ → ℚ → Bool
  | none, _ => false
  | some v, s => decide (v ≤ s)

/-- The `while (low < high)` binary-search loop of `findTForArcLength`.
`index` is assigned `mid = Math.floor((low+high)/2)` at the top of each
iteration and keeps its last value when the loop exits (it is NOT the
converged `low`).  The loop strictly shrinks `high - low`, which is the
termination measure. -/
def bsearchLoop (table : List ℚ) (s : ℚ) (low high index : ℕ) : ℕ :=
  if h : low < high then
    if jsLtOpt (jsGetZ table (((low + high) / 2 : ℕ) : ℤ)) s then
      bsearchLoop table s ((low + high) / 2 + 1) high ((low + high) / 2)
    else
      bsearchLoop table s low ((low + high) / 2) ((low + high) / 2)
  else index
termination_by high - low
decreasing_by
  all_goals omega

/-- `findTForArcLength(table, arcLength)` from the scratch file, faithful
to the JS: clamp `arcLength ≤ 0` to `0` and `arcLength ≥ table[lastIndex]`
to `1`; otherwise run the binary search and linearly interpolate between
`table[index-1]` and `table[index]` using the STALE midpoint `index` (not
the converged `low`).  When `index = 0` the read `table[index-1]` is out
of range (`undefined` in JS, poisoning the result to `NaN`), modelled by
`none`.  The subtraction `table.length - 1` is ℕ-truncated, which matches
JS for every nonempty table. -/
def findTForArcLength (table : List ℚ) (arcLength : ℚ) : Option ℚ :=
  if arcLength ≤ 0 then some 0
  else
    let lastIndex := table.length - 1
    if jsLeOpt (jsGetZ table (lastIndex : ℤ)) arcLength then some 1
    else
      let index := bsearchLoop table arcLength 0 lastIndex 0
      let t0 : ℚ := ((index : ℚ) - 1) / (lastIndex : ℚ)
      let t1 : ℚ := (index : ℚ) / (lastIndex : ℚ)
      match jsGetZ table ((index : ℤ) - 1), jsGetZ table (index : ℤ) with
      | some arcLength0, some arcLength1 =>
        some (t0 + (arcLength - arcLength0) / (arcLength1 - arcLength0) * (t1 - t0))
      | _, _ => none

/-- `table[table.length - 1]`, the table's total length as the code reads
it. -/
def jsLast (table : List ℚ) : Option ℚ :=
  jsGetZ table ((table.length - 1 : ℕ) : ℤ)

/-- Claim C5: for every 3 control points `a b c`, the quadratic
interpolator satisfies `f(0) = a`, `f(1/2) = b` and `f(1) = c` exactly. -/
theorem quadratic_hits_three_points (a b c : Vec2Q) :
    QuadraticInterpolator a b c 0 = a ∧
    QuadraticInterpolator a b c (1/2) = b ∧
    QuadraticInterpolator a b c 1 = c := by
  refine ⟨?_, ?_, ?_⟩ <;>
    · ext <;>
        simp [QuadraticInterpolator, Vec2Q.linearCombination, Vec2Q.add,
          Vec2Q.scale, Vec2Q.zero] <;> ring

/-- Claim C4 (corrected): evaluating the quadratic interpolator of the
source at `a=(0,0)`, `b=(1,2)`, `c=(2,0)` and `t = 1/4` yields `(1/2, 3/2)`:
`u = 2a-4b+2c = (0,-8)`, `v = -3a+4b-c = (2,8)`, so
`f(1/4) = u/16 + v/4 + a = (1/2, 3/2)`. -/
theorem quadratic_at_quarter_eval :
    QuadraticInterpolator ⟨0, 0⟩ ⟨1, 2⟩ ⟨2, 0⟩ (1/4) = ⟨1/2, 3/2⟩ := by
  ext <;>
    · simp [QuadraticInterpolator, Vec2Q.linearCombination, Vec2Q.add,
        Vec2Q.scale, Vec2Q.zero]
      norm_num

/-- Claim C4 counterexample: the value claimed by the spec, `(0.625, 1.125)`,
is not what the code computes at `t = 1/4` for `(0,0),(1,2),(2,0)`. -/
theorem quadratic_at_quarter_counterexample :
    QuadraticInterpolator ⟨0, 0⟩ ⟨1, 2⟩ ⟨2, 0⟩ (1/4) ≠ ⟨5/8, 9/8⟩ := by
  simp [QuadraticInterpolator, Vec2Q.linearCombination, Vec2Q.add,
    Vec2Q.scale, Vec2Q.zero, Vec2Q.ext_iff]
  norm_num

/-- Claim C3 (code bug): the Hermite interpolator is a stub returning its
first control point, so with `a=b=c=(0,0)`, `d=(1,1)` it returns `(0,0)` at
`t = 1`, violating the documented constraint `f(1) = d`. -/
theorem hermite_stub_violates_endpoint :
    HermiteInterpolator ⟨0, 0⟩ ⟨0, 0⟩ ⟨0, 0⟩ ⟨1, 1⟩ 1 = ⟨0, 0⟩ ∧
    (⟨0, 0⟩ : Vec2Q) ≠ ⟨1, 1⟩ := by
  refine ⟨rfl, ?_⟩
  simp [Vec2Q.ext_iff]

/-- Claim C2: for every source rect with nonzero width and height and every
destination rect, the matrix built by `Matrix.viewportTransformation` maps
(via `mulVec2`) the source's origin exactly to the destination's origin and
the source's far corner exactly to the destination's far corner. -/
theorem viewport_maps_corners (src dest : RectQ)
    (hx : src.size.x ≠ 0) (hy : src.size.y ≠ 0) :
    (Matrix3.viewportTransformation src dest).mulVec2 src.origin = dest.origin ∧
    (Matrix3.viewportTransformation src dest).mulVec2 src.farCorner = dest.farCorner := by
  constructor <;> ext <;>
    simp [Matrix3.viewportTransformation, Matrix3.mulVec2,
      Matrix3.viewportScale, Matrix3.viewportTranslate, RectQ.farCorner,
      RectQ.convertNormalizedCoordinate, Vec2Q.componentDiv,
      Vec2Q.componentMul, Vec2Q.add, Vec2Q.sub, Vec2Q.one, hx, hy] <;>
    field_simp <;> ring

/-- Witness for C2 at concrete rects: source `(0,0,2,2)`, destination
`(1,1,4,6)`. -/
theorem viewport_maps_corners_witness :
    (Matrix3.viewportTransformation (RectQ.create 0 0 2 2)
        (RectQ.create 1 1 4 6)).mulVec2 (RectQ.create 0 0 2 2).origin
      = (RectQ.create 1 1 4 6).origin ∧
    (Matrix3.viewportTransformation (RectQ.create 0 0 2 2)
        (RectQ.create 1 1 4 6)).mulVec2 (RectQ.create 0 0 2 2).farCorner
      = (RectQ.create 1 1 4 6).farCorner :=
  viewport_maps_corners (RectQ.create 0 0 2 2) (RectQ.create 1 1 4 6)
    (by norm_num [RectQ.create]) (by norm_num [RectQ.create])

/-- Claim C1 (corrected): the viewport transform never fails.  On a source
rect whose width (resp. height) is zero, `componentDiv`'s zero-divisor
guard makes the corresponding scale entry `0` (so the whole first (resp.
second) column is zero) and the translation on that axis is exactly the
destination origin's coordinate; all entries are finite rationals, never
`Infinity`/`NaN`, and no `InvalidGeometry` error exists in the code. -/
theorem viewport_degenerate_zero_scale (src dest : RectQ) :
    (src.size.x = 0 →
      (Matrix3.viewportTransformation src dest).col0 = ⟨0, 0, 0⟩ ∧
      (Matrix3.viewportTransformation src dest).col2.x = dest.origin.x) ∧
    (src.size.y = 0 →
      (Matrix3.viewportTransformation src dest).col1 = ⟨0, 0, 0⟩ ∧
      (Matrix3.viewportTransformation src dest).col2.y = dest.origin.y) := by
  constructor <;> intro h <;>
    simp [Matrix3.viewportTransformation, Matrix3.viewportScale,
      Matrix3.viewportTranslate, RectQ.farCorner,
      RectQ.convertNormalizedCoordinate, Vec2Q.componentDiv,
      Vec2Q.componentMul, Vec2Q.add, Vec2Q.sub, Vec2Q.one, h, Vec3Q.ext_iff]

/-- Counterexample to C1 as stated: on the fully degenerate source rect
`(1,2,0,0)` (zero width and height) and destination `(3,4,5,6)`, the
embedded `viewportTransformation` — which has no failure path at all —
returns this concrete finite matrix instead of signalling
`InvalidGeometry`. -/
theorem viewport_degenerate_counterexample :
    Matrix3.viewportTransformation (RectQ.create 1 2 0 0) (RectQ.create 3 4 5 6)
      = ⟨⟨0, 0, 0⟩, ⟨0, 0, 0⟩, ⟨3, 4, 0⟩⟩ := by
  ext <;>
    simp [Matrix3.viewportTransformation, Matrix3.viewportScale,
      Matrix3.viewportTranslate, RectQ.farCorner, RectQ.create,
      RectQ.convertNormalizedCoordinate, Vec2Q.componentDiv,
      Vec2Q.componentMul, Vec2Q.add, Vec2Q.sub, Vec2Q.one]

/-- Witness for C1 (corrected) at the degenerate-width source rect
`(1,2,0,0)` and destination `(3,4,5,6)`. -/
theorem viewport_degenerate_zero_scale_witness :
    (Matrix3.viewportTransformation (RectQ.create 1 2 0 0)
        (RectQ.create 3 4 5 6)).col0 = ⟨0, 0, 0⟩ ∧
    (Matrix3.viewportTransformation (RectQ.create 1 2 0 0)
        (RectQ.create 3 4 5 6)).col2.x = 3 :=
  (viewport_degenerate_zero_scale (RectQ.create 1 2 0 0)
    (RectQ.create 3 4 5 6)).1 rfl

/-- Claim C10: every matrix returned by `viewportTransformation` has third
row `(0,0,0)` (bottom-right homogeneous entry `0`, not `1`); `mulVec2`
discards the third output component, so applying the matrix to any point
`p` still yields exactly `scale ⊙ p + translate`, the same result as the
proper affine matrix with bottom-right entry `1`. -/
theorem viewport_matrix_affine_row (src dest : RectQ) (p : Vec2Q) :
    (Matrix3.viewportTransformation src dest).thirdRow = (0, 0, 0) ∧
    (Matrix3.viewportTransformation src dest).mulVec2 p =
      ((Matrix3.viewportScale src dest).componentMul p).add
        (Matrix3.viewportTranslate src dest) ∧
    (Matrix3.viewportTransformation src dest).mulVec2 p =
      ((Matrix3.viewportTransformation src dest).withAffineBottomRight).mulVec2 p := by
  refine ⟨rfl, ?_, ?_⟩ <;> ext <;>
    simp [Matrix3.viewportTransformation, Matrix3.mulVec2,
      Matrix3.withAffineBottomRight, Vec2Q.componentMul, Vec2Q.add]

/-- Claim C9: for every `count ≥ 1` and every rational `t`,
`remapParameterToSubRange` yields a sub-parameter in `[0,1]` and an index
with `0 ≤ index ≤ count - 1`; hence (with `count = N - 1`) the segment
chain only reads `pts[index]` and `pts[index+1]` with
`index + 1 ≤ N - 1 < N`, never out of range. -/
theorem remap_bounds_safe (count : ℕ) (t : ℚ) (hc : 1 ≤ count) :
    0 ≤ (remapParameterToSubRange t count).parameter ∧
    (remapParameterToSubRange t count).parameter ≤ 1 ∧
    0 ≤ (remapParameterToSubRange t count).index ∧
    (remapParameterToSubRange t count).index + 1 ≤ (count : ℤ) ∧
    (remapParameterToSubRange t count).index.toNat + 1 ≤ count := by
  have hcQ : (0 : ℚ) < count := by
    have : (1 : ℚ) ≤ count := by exact_mod_cast hc
    linarith
  unfold remapParameterToSubRange
  by_cases h0 : t ≤ 0
  · simp only [h0, if_true]
    refine ⟨le_refl _, by norm_num, le_refl _, ?_, ?_⟩ <;> omega
  · by_cases h1 : 1 ≤ t
    · simp only [h0, h1, if_false, if_true]
      refine ⟨by norm_num, le_refl _, ?_, ?_, ?_⟩ <;> omega
    · simp only [h0, h1, if_false]
      push_neg at h0 h1
      have hkey : t / (1 / (count : ℚ)) = t * count := by
        field_simp
      have hpos : 0 < t * (count : ℚ) := mul_pos h0 hcQ
      have hwne : (1 : ℚ) / count ≠ 0 := by positivity
      have hfr : jsMod t (1 / count) / (1 / (count : ℚ)) = Int.fract (t * count) := by
        unfold jsMod jsTrunc
        rw [hkey, if_neg (not_lt.mpr hpos.le), Int.fract]
        field_simp
      have hidx : ⌊t / (1 / (count : ℚ))⌋ = ⌊t * count⌋ := by rw [hkey]
      have hlt : t * (count : ℚ) < ((count : ℤ) : ℚ) := by
        push_cast
        nlinarith
      have hfl : ⌊t * (count : ℚ)⌋ < (count : ℤ) := Int.floor_lt.mpr hlt
      have hfl0 : 0 ≤ ⌊t * (count : ℚ)⌋ := Int.floor_nonneg.mpr hpos.le
      simp only [hfr, hidx]
      refine ⟨Int.fract_nonneg _, (Int.fract_lt_one _).le, hfl0, ?_, ?_⟩ <;> omega

/-- Witness for C9 at `count = 3`, `t = 1/2` (the remap yields index `1`,
sub-parameter `1/2`). -/
theorem remap_bounds_safe_witness :
    0 ≤ (remapParameterToSubRange (1/2) 3).parameter ∧
    (remapParameterToSubRange (1/2) 3).parameter ≤ 1 ∧
    0 ≤ (remapParameterToSubRange (1/2) 3).index ∧
    (remapParameterToSubRange (1/2) 3).index + 1 ≤ (3 : ℤ) ∧
    (remapParameterToSubRange (1/2) 3).index.toNat + 1 ≤ 3 :=
  remap_bounds_safe 3 (1/2) (by norm_num)

/-- Helper: `lerp` at amount `0` returns the start point. -/
theorem lerp_amount_zero (a b : Vec2Q) : a.lerp b 0 = a := by
  ext <;> simp [Vec2Q.lerp, Vec2Q.add, Vec2Q.sub, Vec2Q.scale]

/-- Helper: `lerp` at amount `1` returns the end point. -/
theorem lerp_amount_one (a b : Vec2Q) : a.lerp b 1 = b := by
  ext <;> simp [Vec2Q.lerp, Vec2Q.add, Vec2Q.sub, Vec2Q.scale]

/-- Helper: the remap of `t = 1/2` over `3` segments picks segment `1`
with sub-parameter `1/2` (`0.5 % (1/3) = 1/6`, `(1/6)/(1/3) = 1/2`,
`⌊0.5/(1/3)⌋ = 1`). -/
theorem remap_half_three : remapParameterToSubRange (1/2) 3 = ⟨1/2, 1⟩ := by
  unfold remapParameterToSubRange jsMod jsTrunc
  norm_num

/-- Claim C8 (corrected): for every list of at least 2 control points the
segment-chain interpolator clamps — `f(t)` is the first point for all
`t ≤ 0` and the last point for all `t ≥ 1` (no extrapolation); and for 4
control points `f(1/2)` lands exactly on the midpoint of the two middle
control points (`p1.lerp p2 (1/2)`), not on a control point. -/
theorem segments_clamp_and_middle :
    (∀ (pts : List Vec2Q) (t : ℚ), 2 ≤ pts.length →
      (t ≤ 0 → LineSegmentsInterpolator pts t = pts.getD 0 Vec2Q.zero) ∧
      (1 ≤ t → LineSegmentsInterpolator pts t =
        pts.getD (pts.length - 1) Vec2Q.zero)) ∧
    (∀ p0 p1 p2 p3 : Vec2Q,
      LineSegmentsInterpolator [p0, p1, p2, p3] (1/2) = p1.lerp p2 (1/2)) := by
  constructor
  · intro pts t hlen
    have hns : ¬ (pts.length - 1 < 1) := by omega
    constructor
    · intro ht
      simp only [LineSegmentsInterpolator, remapParameterToSubRange,
        LineSegmentInterpolator, if_neg hns, if_pos ht, Int.toNat_zero]
      exact lerp_amount_zero _ _
    · intro ht
      have ht0 : ¬ t ≤ 0 := by linarith
      simp only [LineSegmentsInterpolator, remapParameterToSubRange,
        LineSegmentInterpolator, if_neg hns, if_neg ht0, if_pos ht]
      rw [show (((pts.length - 1 : ℕ) : ℤ) - 1).toNat = pts.length - 2 by omega,
        show pts.length - 2 + 1 = pts.length - 1 by omega]
      exact lerp_amount_one _ _
  · intro p0 p1 p2 p3
    simp only [LineSegmentsInterpolator, List.length_cons, List.length_nil]
    rw [show (0 + 1 + 1 + 1 + 1 - 1 : ℕ) = 3 by norm_num, remap_half_three]
    simp [LineSegmentInterpolator, List.getD]

/-- Counterexample to C8 as stated: for the 4 collinear control points
`(0,0),(1,0),(2,0),(3,0)`, `f(1/2) = (3/2, 0)`, which is not a member of
the control-point list at all — in particular it is not "the middle
control point". -/
theorem segments_middle_counterexample :
    LineSegmentsInterpolator [⟨0, 0⟩, ⟨1, 0⟩, ⟨2, 0⟩, ⟨3, 0⟩] (1/2) = ⟨3/2, 0⟩ ∧
    (⟨3/2, 0⟩ : Vec2Q) ∉ ([⟨0, 0⟩, ⟨1, 0⟩, ⟨2, 0⟩, ⟨3, 0⟩] : List Vec2Q) := by
  constructor
  · simp only [LineSegmentsInterpolator, List.length_cons, List.length_nil]
    rw [show (0 + 1 + 1 + 1 + 1 - 1 : ℕ) = 3 by norm_num, remap_half_three]
    simp [LineSegmentInterpolator, List.getD, Vec2Q.lerp, Vec2Q.add,
      Vec2Q.sub, Vec2Q.scale, Vec2Q.ext_iff]
    norm_num
  · simp [Vec2Q.ext_iff]
    norm_num

/-- Witness for C8 (corrected) on the 2-point chain `(0,0),(2,2)`:
`f(-1)` is the first point and `f(2)` is the last point. -/
theorem segments_clamp_and_middle_witness :
    LineSegmentsInterpolator [⟨0, 0⟩, ⟨2, 2⟩] (-1) = ⟨0, 0⟩ ∧
    LineSegmentsInterpolator [⟨0, 0⟩, ⟨2, 2⟩] 2 = ⟨2, 2⟩ :=
  ⟨((segments_clamp_and_middle.1 [⟨0, 0⟩, ⟨2, 2⟩] (-1) (by norm_num)).1
      (by norm_num)).trans rfl,
   ((segments_clamp_and_middle.1 [⟨0, 0⟩, ⟨2, 2⟩] 2 (by norm_num)).2
      (by norm_num)).trans rfl⟩

/-- Helper: the binary search on table `[0,1,10]` with target `3` exits
with the stale midpoint `index = 1` (the converged `low` is `2`). -/
theorem bsearch_stale_example : bsearchLoop [0, 1, 10] 3 0 2 0 = 1 := by
  rw [bsearchLoop]
  norm_num [jsGetZ, jsLtOpt]
  rw [bsearchLoop]
  norm_num

/-- Claim C6 (code bug): on the strictly increasing table `[0, 1, 10]`
(`N = 2` steps) with requested arc length `s = 3` strictly between `0` and
the total `10`, the code returns `t = 3/2`: the final interpolation uses
the stale midpoint `index = 1` — bracket `[table[0], table[1]] = [0, 1]` —
instead of the bracketing index `i = 2` with `table[1] ≤ 3 ≤ table[2]`
(which would give `1/2 + (3-1)/(10-1) · 1/2 = 11/18`), and the result even
falls outside `[0, 1]`. -/
theorem findT_stale_index_eval :
    findTForArcLength [0, 1, 10] 3 = some (3/2) ∧ ¬ ((3/2 : ℚ) ≤ 1) := by
  constructor
  · simp only [findTForArcLength]
    norm_num [jsGetZ, jsLeOpt, bsearch_stale_example]
    decide
  · norm_num

/-- Helper: every list built by the arc-length accumulation loop is a
`≤`-chain from its carried length onward, since each step adds a
chord-length increment that is nonnegative whenever `sqrtFn` is
nonnegative on nonnegative inputs. -/
theorem chain_buildArcLengthEntries (sqrtFn : ℚ → ℚ)
    (hs : ∀ q : ℚ, 0 ≤ q → 0 ≤ sqrtFn q) (points : List Point3) (steps : ℕ)
    (idxs : List ℕ) :
    ∀ (length : ℚ) (prevPoint : Point3),
      List.Chain' (· ≤ ·)
        (length :: buildArcLengthEntries sqrtFn points steps idxs length prevPoint) := by
  induction idxs with
  | nil =>
    intro length prevPoint
    simp [buildArcLengthEntries]
  | cons i rest ih =>
    intro length prevPoint
    simp only [buildArcLengthEntries]
    rw [List.chain'_cons]
    have h0 : 0 ≤ chordLength sqrtFn prevPoint
        (evaluateBezier points ((i : ℚ) / (steps : ℚ))) := by
      unfold chordLength
      exact hs _ (by positivity)
    exact ⟨by linarith, ih _ _⟩

/-- Helper: `factorial` of any `n ≤ 1` is `1` (the recursion's base case). -/
theorem factorial_base (n : ℕ) (h : n ≤ 1) : factorial n = 1 := by
  rw [factorial, dif_pos h]

/-- Helper: `binomialCoefficient 0 0 = 1`. -/
theorem binom_zero_zero : binomialCoefficient 0 0 = 1 := by
  unfold binomialCoefficient
  simp [factorial_base]

/-- Helper: a one-point Bézier curve is constant at its single control
point (the loop runs once with coefficient `C(0,0)·(1-t)^0·t^0 = 1`). -/
theorem evaluateBezier_singleton (p : Point3) (t : ℚ) :
    evaluateBezier [p] t = p := by
  obtain ⟨px, py, pz⟩ := p
  unfold evaluateBezier
  norm_num [binom_zero_zero, List.range_succ, List.range_zero,
    List.foldl_cons, List.foldl_nil]

/-- Helper: `findTForArcLength` returns `some 0` on any `s ≤ 0` (first
branch of the code). -/
theorem findT_low_clamp (table : List ℚ) (s : ℚ) (h : s ≤ 0) :
    findTForArcLength table s = some 0 := by
  unfold findTForArcLength
  rw [if_pos h]

/-- Helper: any positive `s` at or above the table's last entry is clamped
to `some 1` (second branch of the code). -/
theorem findT_high_clamp (table : List ℚ) (s total : ℚ) (h0 : 0 < s)
    (hlast : jsLast table = some total) (hle : total ≤ s) :
    findTForArcLength table s = some 1 := by
  unfold findTForArcLength
  rw [if_neg (not_le.mpr h0)]
  have hcond : jsLeOpt (jsGetZ table ((table.length - 1 : ℕ) : ℤ)) s = true := by
    unfold jsLast at hlast
    rw [hlast]
    simp [jsLeOpt, hle]
  simp only [hcond, if_true]

/-- Claim C7 (corrected): every table produced by `buildArcLengthTable`
(`sqrtFn` standing for `Math.sqrt`, nonnegative on nonnegative inputs) is
monotonically non-decreasing, and `findTForArcLength` clamps without
signalling an error: `some 0` for every `s ≤ 0`, and `some 1` for every
`s` at or above the table's total length provided `0 < s` — when the
total length is `0` and `s = 0` the `s ≤ 0` clamp takes precedence and
the result is `some 0`. -/
theorem arc_table_monotone_and_clamped (sqrtFn : ℚ → ℚ) (points : List Point3)
    (steps : ℕ) (s : ℚ) (hs : ∀ q : ℚ, 0 ≤ q → 0 ≤ sqrtFn q) :
    List.Chain' (· ≤ ·) (buildArcLengthTable sqrtFn points steps) ∧
    (s ≤ 0 →
      findTForArcLength (buildArcLengthTable sqrtFn points steps) s = some 0) ∧
    (0 < s → ∀ total,
      jsLast (buildArcLengthTable sqrtFn points steps) = some total →
      total ≤ s →
      findTForArcLength (buildArcLengthTable sqrtFn points steps) s = some 1) := by
  refine ⟨?_, fun h => findT_low_clamp _ _ h,
    fun h0 total hlast hle => findT_high_clamp _ _ _ h0 hlast hle⟩
  unfold buildArcLengthTable
  exact chain_buildArcLengthEntries sqrtFn hs points steps _ 0 _

/-- Counterexample to C7 as stated: the degenerate single-point curve with
one step builds the table `[0, 0]` (total length `0`; `fun q => q` agrees
with `Math.sqrt` on the only argument that occurs, `0`), and the query
`s = 0` satisfies `s ≥ total` yet `findTForArcLength` returns `some 0`,
not `some 1` — the `s ≤ 0` branch wins. -/
theorem arc_table_clamp_counterexample :
    buildArcLengthTable (fun q => q) [⟨0, 0, 0⟩] 1 = [0, 0] ∧
    findTForArcLength [0, 0] 0 = some 0 ∧ some (0 : ℚ) ≠ some (1 : ℚ) := by
  refine ⟨?_, ?_, by norm_num⟩
  · unfold buildArcLengthTable
    norm_num [buildArcLengthEntries, chordLength, evaluateBezier_singleton]
  · unfold findTForArcLength
    rw [if_pos le_rfl]

/-- Witness for C7 (corrected): the two-point curve `[(0,0,0), (1,2,1)]`
with `steps = 2` and query `s = 0`, instantiating `sqrtFn := fun q => q`
(nonnegative on nonnegative inputs). -/
theorem arc_table_monotone_and_clamped_witness :
    List.Chain' (· ≤ ·)
      (buildArcLengthTable (fun q => q) [⟨0, 0, 0⟩, ⟨1, 2, 1⟩] 2) ∧
    ((0 : ℚ) ≤ 0 →
      findTForArcLength
        (buildArcLengthTable (fun q => q) [⟨0, 0, 0⟩, ⟨1, 2, 1⟩] 2) 0 = some 0) ∧
    ((0 : ℚ) < 0 → ∀ total,
      jsLast (buildArcLengthTable (fun q => q) [⟨0, 0, 0⟩, ⟨1, 2, 1⟩] 2) =
        some total →
      total ≤ 0 →
      findTForArcLength
        (buildArcLengthTable (fun q => q) [⟨0, 0, 0⟩, ⟨1, 2, 1⟩] 2) 0 = some 1) :=
  arc_table_monotone_and_clamped (fun q => q) [⟨0, 0, 0⟩, ⟨1, 2, 1⟩] 2 0
    (fun _ h => h)
